import Mathlib

/-!
Shallow embedding of the tool-dispatch core of `src/mcpServer.js` from the
`postman-mcp-server` repository, together with the concrete tool catalog
entries from `src/tools/.../step-1-flight-offers-search-get.js` and
`src/unnamed/part_000`.

JavaScript values that flow through the dispatcher are modelled by the
JSON-like `Value` type; `undefined`/absent fields become `Option`; a thrown
JavaScript error (a `TypeError` from an unguarded property access, or a
rejection from a tool implementation) becomes the `JsError` structure.
-/

namespace McpServer

/-- JSON-compatible runtime values (results of tool implementations,
REST response bodies). Numbers are modelled as integers. -/
inductive Value where
  | null
  | bool (b : Bool)
  | num (n : Int)
  | str (s : String)
  | arr (elems : List Value)
  | obj (fields : List (String × Value))
deriving Repr

/-- A thrown JavaScript error: its constructor name, its `message`
property, and its `stack` property. -/
structure JsError where
  name : String
  message : String
  stack : String
deriving Repr, DecidableEq

/-- Escape one character as inside a JSON string literal. -/
def escapeChar (c : Char) : String :=
  if c = '"' then "\\\""
  else if c = '\\' then "\\\\"
  else if c = '\n' then "\\n"
  else if c = '\t' then "\\t"
  else if c = '\r' then "\\r"
  else String.singleton c

/-- Quote a string as a JSON string literal. -/
def quoteString (s : String) : String :=
  "\"" ++ String.join (s.toList.map escapeChar) ++ "\""

/-- Indentation produced by `JSON.stringify(v, null, 2)` at nesting depth
`d`: two spaces per level. -/
def indentOf (d : Nat) : String :=
  String.join (List.replicate d "  ")

mutual

/-- Model of `JSON.stringify(v, null, 2)` at nesting depth `d`. -/
def stringifyVal : Value → Nat → String
  | .null, _ => "null"
  | .bool true, _ => "true"
  | .bool false, _ => "false"
  | .num n, _ => toString n
  | .str s, _ => quoteString s
  | .arr [], _ => "[]"
  | .arr (x :: xs), d =>
      "[\n" ++ stringifyItems (x :: xs) (d + 1) ++ "\n" ++ indentOf d ++ "]"
  | .obj [], _ => "\x7b\x7d"
  | .obj (f :: fs), d =>
      "\x7b\n" ++ stringifyFields (f :: fs) (d + 1) ++ "\n" ++ indentOf d ++ "\x7d"

/-- Serialize the elements of a JSON array, one per line. -/
def stringifyItems : List Value → Nat → String
  | [], _ => ""
  | [x], d => indentOf d ++ stringifyVal x d
  | x :: y :: xs, d =>
      indentOf d ++ stringifyVal x d ++ ",\n" ++ stringifyItems (y :: xs) d

/-- Serialize the fields of a JSON object, one per line. -/
def stringifyFields : List (String × Value) → Nat → String
  | [], _ => ""
  | [(k, v)], d => indentOf d ++ quoteString k ++ ": " ++ stringifyVal v d
  | (k, v) :: g :: fs, d =>
      indentOf d ++ quoteString k ++ ": " ++ stringifyVal v d ++ ",\n" ++
        stringifyFields (g :: fs) d

end

/-- Model of the call `JSON.stringify(result, null, 2)` on line 69 of
`src/mcpServer.js`. -/
def jsonStringify (v : Value) : String :=
  stringifyVal v 0

/-- The `arguments` mapping of a call: parameter name to value.
Key presence models the JavaScript `in` operator on a plain object. -/
abbrev ArgMap := List (String × Value)

/-- The JavaScript `key in args` check: key presence only, values
(including `null`) are never inspected. -/
def hasKey (m : ArgMap) (k : String) : Bool :=
  m.any (fun kv => kv.1 = k)

/-- Schema of a single declared parameter (`type`, `description`). -/
structure PropSchema where
  type : String
  description : String
deriving Repr, DecidableEq

/-- The `parameters` object of a tool definition: `type`, `properties`,
and the optional `required` list. -/
structure Params where
  type : String
  properties : List (String × PropSchema)
  required : Option (List String)
deriving Repr, DecidableEq

/-- The `definition.function` wrapper of a tool. -/
structure FunctionDef where
  name : String
  description : String
  parameters : Option Params
deriving Repr, DecidableEq

/-- The `definition` object of a tool (`type: 'function'` plus the
`function` wrapper, which a malformed entry may lack). -/
structure ToolDefinition where
  type : String
  function : Option FunctionDef
deriving Repr, DecidableEq

/-- One catalog entry as produced by `discoverTools`: the implementation
callable and the (possibly absent or malformed) definition. An
implementation receives the arguments (possibly `undefined`) and either
resolves with a `Value` or rejects with a `JsError`. -/
structure ToolEntry where
  function : Option ArgMap → Except JsError Value
  definition : Option ToolDefinition

/-- The optional-chained access `tool.definition?.function`. -/
def wrapperOf (t : ToolEntry) : Option FunctionDef :=
  t.definition.bind (fun d => d.function)

/-- The expression `tool.definition?.function?.parameters?.required || []`
(lines 53-54 and 132 of `src/mcpServer.js`). -/
def requiredParams (t : ToolEntry) : List String :=
  match t.definition with
  | none => []
  | some d =>
    match d.function with
    | none => []
    | some f =>
      match f.parameters with
      | none => []
      | some p => p.required.getD []

/-- The `TypeError` thrown by `t.definition.function` when `definition` is
absent. -/
def typeErrorReadFunction : JsError :=
  ⟨"TypeError", "Cannot read properties of undefined (reading \x27function\x27)", ""⟩

/-- The `TypeError` thrown by `t.definition.function.name` when the
`function` wrapper is absent. -/
def typeErrorReadName : JsError :=
  ⟨"TypeError", "Cannot read properties of undefined (reading \x27name\x27)", ""⟩

/-- The unguarded access `t.definition.function.name` used by the resolve
predicate (line 48 and line 123): it throws a `TypeError` when `definition`
or `definition.function` is absent. -/
def readFunctionName (t : ToolEntry) : Except JsError String :=
  match t.definition with
  | none => .error typeErrorReadFunction
  | some d =>
    match d.function with
    | none => .error typeErrorReadName
    | some f => .ok f.name

/-- `tools.find((t) => t.definition.function.name === toolName)`:
first entry whose wrapper name equals `name`, by exact case-sensitive
string equality; a malformed entry reached during the scan throws. -/
def findTool : List ToolEntry → String → Except JsError (Option ToolEntry)
  | [], _ => .ok none
  | t :: ts, name =>
    match readFunctionName t with
    | .error e => .error e
    | .ok n => if n = name then .ok (some t) else findTool ts name

/-- The validation loop of lines 55-62 / 133-140: walk the required list in
schema-declared order; `key in args` on an absent arguments object throws a
`TypeError`; the first missing key is reported; values are never inspected. -/
def checkRequired : List String → Option ArgMap → Except JsError (Option String)
  | [], _ => .ok none
  | p :: _, none =>
      .error ⟨"TypeError",
        "Cannot use \x27in\x27 operator to search for \x27" ++ p ++
          "\x27 in undefined", ""⟩
  | p :: ps, some m =>
      if hasKey m p then checkRequired ps (some m) else .ok (some p)

/-- One content block of a protocol response. -/
structure ContentBlock where
  type : String
  text : String
deriving Repr, DecidableEq

/-- A successful `call_tool` protocol response. -/
structure CallToolResponse where
  content : List ContentBlock
deriving Repr, DecidableEq

/-- The protocol error codes used by the dispatcher. -/
inductive ErrorCode where
  | MethodNotFound
  | InvalidParams
  | InternalError
deriving Repr, DecidableEq

/-- Outcome of the `CallToolRequestSchema` handler: a successful response,
a thrown `McpError` (protocol error), or a thrown non-protocol JavaScript
error escaping the handler. -/
inductive DispatchResult where
  | success (response : CallToolResponse)
  | protocolError (code : ErrorCode) (message : String)
  | thrown (e : JsError)
deriving Repr

/-- A `call_tool` request: tool name plus the optional arguments mapping
(`request.params.arguments` may be absent). -/
structure CallToolRequest where
  name : String
  arguments : Option ArgMap

/-- Lines 63-79: invoke the implementation inside `try/catch`; a resolved
value is wrapped as one pretty-printed text block, a rejection is logged and
re-raised as `InternalError` embedding only the error's message. -/
def invokeResult (tool : ToolEntry) (args : Option ArgMap) : DispatchResult :=
  match tool.function args with
  | .ok v => .success ⟨[⟨"text", jsonStringify v⟩]⟩
  | .error e => .protocolError .InternalError ("API error: " ++ e.message)

/-- The `CallToolRequestSchema` handler, lines 46-80 of `src/mcpServer.js`. -/
def dispatchCallTool (tools : List ToolEntry) (req : CallToolRequest) :
    DispatchResult :=
  match findTool tools req.name with
  | .error e => .thrown e
  | .ok none => .protocolError .MethodNotFound ("Unknown tool: " ++ req.name)
  | .ok (some tool) =>
    match checkRequired (requiredParams tool) req.arguments with
    | .error e => .thrown e
    | .ok (some p) =>
        .protocolError .InvalidParams ("Missing required parameter: " ++ p)
    | .ok none => invokeResult tool req.arguments

/-- The wire shape exposed by `list_tools`. -/
structure WireTool where
  name : String
  description : String
  inputSchema : Option Params
deriving Repr, DecidableEq

/-- The shape built on lines 32-36 from a present wrapper. -/
def wireOf (f : FunctionDef) : WireTool :=
  ⟨f.name, f.description, f.parameters⟩

/-- `transformTools` (lines 27-39): map each entry to its wire shape, or to
`undefined` when the wrapper is absent, then `filter(Boolean)`. -/
def transformTools (tools : List ToolEntry) : List WireTool :=
  (tools.map (fun t => (wrapperOf t).map wireOf)).filterMap id

/-- Body of a `POST /api/call-tool` request: `toolName` and `arguments`
may each be absent; the code's `if (!toolName)` also rejects the falsy
empty string. -/
structure ApiCallBody where
  toolName : Option String
  arguments : Option ArgMap

/-- An HTTP response of the REST endpoint: status code and JSON body. -/
structure RestResponse where
  status : Nat
  body : Value
deriving Repr

/-- The catch-all of lines 146-152: status 500 with the error's message;
the stack is attached only in development mode (otherwise the `undefined`
field is dropped from the serialized body). -/
def err500 (devMode : Bool) (e : JsError) : RestResponse :=
  ⟨500, .obj (("error", .str e.message) ::
    (if devMode then [("stack", .str e.stack)] else []))⟩

/-- `tools.map(t => t.definition.function.name)` (line 127), with the same
unguarded access as the resolve predicate. -/
def mapNamesJs : List ToolEntry → Except JsError (List String)
  | [] => .ok []
  | t :: ts =>
    match readFunctionName t with
    | .error e => .error e
    | .ok n =>
      match mapNamesJs ts with
      | .error e => .error e
      | .ok ns => .ok (n :: ns)

/-- The names of the well-formed entries of a catalog. -/
def toolNames (tools : List ToolEntry) : List String :=
  tools.filterMap (fun t => (wrapperOf t).map (fun f => f.name))

/-- The `POST /api/call-tool` handler, lines 112-153 of `src/mcpServer.js`.
The whole body runs inside `try/catch`, so any thrown `JsError` becomes a
500 response. -/
def handleApiCallTool (tools : List ToolEntry) (devMode : Bool)
    (body : ApiCallBody) : RestResponse :=
  match body.toolName with
  | none => ⟨400, .obj [("error", .str "Missing required field: toolName")]⟩
  | some name =>
    if name = "" then
      ⟨400, .obj [("error", .str "Missing required field: toolName")]⟩
    else
      match findTool tools name with
      | .error e => err500 devMode e
      | .ok none =>
        match mapNamesJs tools with
        | .error e => err500 devMode e
        | .ok ns =>
            ⟨404, .obj [("error", .str ("Tool \x27" ++ name ++ "\x27 not found")),
                        ("availableTools", .arr (ns.map Value.str))]⟩
      | .ok (some tool) =>
        match checkRequired (requiredParams tool) body.arguments with
        | .error e => err500 devMode e
        | .ok (some p) =>
            ⟨400, .obj [("error", .str ("Missing required parameter: " ++ p)),
                        ("requiredParameters",
                          .arr ((requiredParams tool).map Value.str))]⟩
        | .ok none =>
          match tool.function body.arguments with
          | .ok v => ⟨200, v⟩
          | .error e => err500 devMode e

/-- The SSE session registry: the keys of the `transports` and `servers`
objects of lines 90-91 (the values are opaque to the routing logic). -/
structure Registry where
  transports : List String
  servers : List String
deriving Repr, DecidableEq

/-- Lines 183-184: `transports[id] = transport; servers[id] = server` —
two synchronous assignments with no suspension point between them. -/
def connectReg (r : Registry) (sid : String) : Registry :=
  ⟨r.transports.insert sid, r.servers.insert sid⟩

/-- The observable states of the close handler of lines 186-190, in order:
after the synchronous `delete transports[id]` the handler suspends on
`await server.close()` (other handlers may run and observe this state);
if `close` resolves, `delete servers[id]` then yields the final state, but
if `close` rejects the handler aborts and the `servers` entry is never
deleted. -/
def closeObservedStates (r : Registry) (sid : String) (closeFails : Bool) :
    List Registry :=
  let r1 : Registry := ⟨r.transports.erase sid, r.servers⟩
  if closeFails then [r1]
  else [r1, ⟨r1.transports, r1.servers.erase sid⟩]

/-- The registry state after the close handler has finished (or aborted on
a rejected `server.close()`). -/
def closeFinal (r : Registry) (sid : String) (closeFails : Bool) : Registry :=
  (closeObservedStates r sid closeFails).getLastD r

/-- Outcome of the `POST /messages` handler. -/
inductive MessageOutcome where
  | forwarded
  | clientError (status : Nat) (body : String)
deriving Repr, DecidableEq

/-- The `POST /messages` handler, lines 196-206: forward only when both
registry entries exist for the session identifier. -/
def handleMessage (r : Registry) (sid : String) : MessageOutcome :=
  if sid ∈ r.transports ∧ sid ∈ r.servers then .forwarded
  else .clientError 400 "No transport/server found for sessionId"

/-- The `parameters` object of
`src/tools/.../step-1-flight-offers-search-get.js`, lines 100-129:
`returnDate` is declared but not required. -/
def step1FlightOffersParams : Params :=
  ⟨"object",
   [("originLocationCode", ⟨"string", "The IATA code of the origin location."⟩),
    ("destinationLocationCode",
      ⟨"string", "The IATA code of the destination location."⟩),
    ("departureDate", ⟨"string", "The departure date in YYYY-MM-DD format."⟩),
    ("returnDate", ⟨"string", "The return date in YYYY-MM-DD format."⟩),
    ("adults", ⟨"integer", "The number of adults traveling."⟩),
    ("max", ⟨"integer", "The maximum number of flight offers to return."⟩)],
   some ["originLocationCode", "destinationLocationCode", "departureDate"]⟩

/-- The `parameters` object of the sibling variant `src/unnamed/part_000`,
lines 65-94: identical except that `returnDate` is also required. -/
def part000FlightOffersParams : Params :=
  ⟨"object",
   [("originLocationCode", ⟨"string", "The IATA code of the origin location."⟩),
    ("destinationLocationCode",
      ⟨"string", "The IATA code of the destination location."⟩),
    ("departureDate", ⟨"string", "The departure date in YYYY-MM-DD format."⟩),
    ("returnDate", ⟨"string", "The return date in YYYY-MM-DD format."⟩),
    ("adults", ⟨"integer", "The number of adults traveling."⟩),
    ("max", ⟨"integer", "The maximum number of flight offers to return."⟩)],
   some ["originLocationCode", "destinationLocationCode", "departureDate",
         "returnDate"]⟩

/-- The `apiTool` of `step-1-flight-offers-search-get.js`, with the network
implementation abstracted as `impl`. -/
def step1FlightOffersTool (impl : Option ArgMap → Except JsError Value) :
    ToolEntry :=
  ⟨impl, some ⟨"function",
    some ⟨"search_flight_offers",
          "Search for flight offers using the Amadeus API.",
          some step1FlightOffersParams⟩⟩⟩

/-- The `apiTool` of `src/unnamed/part_000`, with the network
implementation abstracted as `impl`. -/
def part000FlightOffersTool (impl : Option ArgMap → Except JsError Value) :
    ToolEntry :=
  ⟨impl, some ⟨"function",
    some ⟨"search_flight_offers",
          "Search for flight offers using the Amadeus API.",
          some part000FlightOffersParams⟩⟩⟩

/-- The example arguments of the spec: origin, destination and departure
date supplied, `returnDate` omitted. -/
def flightSearchArgs : ArgMap :=
  [("originLocationCode", .str "JFK"),
   ("destinationLocationCode", .str "LAX"),
   ("departureDate", .str "2024-06-01")]

/-- A small implementation used to instantiate universally quantified
statements: it resolves with the string `"ok"`. -/
def sampleImpl : Option ArgMap → Except JsError Value :=
  fun _ => .ok (.str "ok")

/-- A well-formed sample entry named `t1` with one required parameter. -/
def sampleTool : ToolEntry :=
  ⟨sampleImpl, some ⟨"function",
    some ⟨"t1", "sample tool",
      some ⟨"object", [("a", ⟨"string", "a parameter"⟩)], some ["a"]⟩⟩⟩⟩

/-- An implementation that always rejects, carrying a message and a
distinct stack. -/
def failingImpl : Option ArgMap → Except JsError Value :=
  fun _ => .error ⟨"Error", "boom", "Error: boom at dispatch"⟩

/-- A well-formed sample entry named `t2` whose implementation rejects. -/
def failingTool : ToolEntry :=
  ⟨failingImpl, some ⟨"function",
    some ⟨"t2", "failing tool", some ⟨"object", [], some []⟩⟩⟩⟩

/-- A malformed entry: the `definition` object itself is absent. -/
def badTool : ToolEntry :=
  ⟨fun _ => .ok .null, none⟩

/-- A malformed entry of the other shape: `definition` is present but the
`definition.function` wrapper is absent. -/
def badTool2 : ToolEntry :=
  ⟨fun _ => .ok .null, some ⟨"function", none⟩⟩

section Lemmas

/-- The unguarded name read succeeds exactly on a present wrapper. -/
lemma readFunctionName_of_wrapper {t : ToolEntry} {f : FunctionDef}
    (h : wrapperOf t = some f) : readFunctionName t = .ok f.name := by
  unfold wrapperOf at h
  cases hd : t.definition with
  | none => rw [hd] at h; cases h
  | some d =>
    rw [hd] at h
    replace h : d.function = some f := by simpa using h
    simp [readFunctionName, hd, h]

/-- The unguarded name read throws a `TypeError` on a missing wrapper. -/
lemma readFunctionName_error_of_none {t : ToolEntry}
    (h : wrapperOf t = none) :
    ∃ e : JsError, e.name = "TypeError" ∧ readFunctionName t = .error e := by
  unfold wrapperOf at h
  cases hd : t.definition with
  | none => exact ⟨typeErrorReadFunction, rfl, by simp [readFunctionName, hd]⟩
  | some d =>
    rw [hd] at h
    replace h : d.function = none := by simpa using h
    exact ⟨typeErrorReadName, rfl, by simp [readFunctionName, hd, h]⟩

/-- The validation loop on a present arguments object never throws and
returns the first required name missing from the arguments, in
schema-declared order. -/
lemma checkRequired_some_eq {ps : List String} {m : ArgMap} :
    checkRequired ps (some m) = .ok (ps.find? (fun p => !(hasKey m p))) := by
  induction ps with
  | nil => rfl
  | cons p ps ih =>
    by_cases h : hasKey m p
    · simp [checkRequired, h, List.find?, ih]
    · simp [checkRequired, h, List.find?]

/-- On a catalog of well-formed entries none of which carries the
requested name, the resolve scan completes without a match. -/
lemma findTool_eq_none {tools : List ToolEntry} {name : String}
    (hwf : ∀ t ∈ tools, (wrapperOf t).isSome = true)
    (hnm : ∀ t ∈ tools, ∀ f, wrapperOf t = some f → f.name ≠ name) :
    findTool tools name = .ok none := by
  induction tools with
  | nil => rfl
  | cons t ts ih =>
    obtain ⟨f, hf⟩ := Option.isSome_iff_exists.mp (hwf t (List.mem_cons_self t ts))
    have hne : f.name ≠ name := hnm t (List.mem_cons_self t ts) f hf
    have := readFunctionName_of_wrapper hf
    simp only [findTool, this, if_neg hne]
    exact ih (fun u hu => hwf u (List.mem_cons_of_mem t hu))
      (fun u hu => hnm u (List.mem_cons_of_mem t hu))

/-- On a catalog of well-formed entries the resolve scan never throws. -/
lemma findTool_ok_of_wf {tools : List ToolEntry} (name : String)
    (hwf : ∀ t ∈ tools, (wrapperOf t).isSome = true) :
    ∃ o, findTool tools name = .ok o := by
  induction tools with
  | nil => exact ⟨none, rfl⟩
  | cons t ts ih =>
    obtain ⟨f, hf⟩ := Option.isSome_iff_exists.mp (hwf t (List.mem_cons_self t ts))
    have := readFunctionName_of_wrapper hf
    by_cases h : f.name = name
    · exact ⟨some t, by simp [findTool, this, h]⟩
    · obtain ⟨o, ho⟩ := ih (fun u hu => hwf u (List.mem_cons_of_mem t hu))
      exact ⟨o, by simp [findTool, this, h, ho]⟩

/-- On an unmatched name in a well-formed catalog the handler throws the
protocol `MethodNotFound` error carrying the requested name. -/
lemma dispatch_unknown_aux (tools : List ToolEntry) (name : String)
    (args : Option ArgMap)
    (hwf : ∀ t ∈ tools, (wrapperOf t).isSome = true)
    (hnm : ∀ t ∈ tools, ∀ f, wrapperOf t = some f → f.name ≠ name) :
    dispatchCallTool tools ⟨name, args⟩
      = .protocolError .MethodNotFound ("Unknown tool: " ++ name) := by
  simp [dispatchCallTool, findTool_eq_none hwf hnm]

/-- The wrapper is a function of the `definition` field alone. -/
lemma wrapperOf_congr {a b : ToolEntry} (h : a.definition = b.definition) :
    wrapperOf a = wrapperOf b := by
  unfold wrapperOf; rw [h]

/-- A property of the wrappers transfers along definition-preserving
replacement of the implementations. -/
lemma forall₂_wrapper {tools tools2 : List ToolEntry}
    (hfa : List.Forall₂ (fun a b => a.definition = b.definition) tools tools2)
    {P : Option FunctionDef → Prop}
    (h : ∀ t ∈ tools, P (wrapperOf t)) : ∀ t ∈ tools2, P (wrapperOf t) := by
  induction hfa with
  | nil => intro t ht; cases ht
  | @cons a b l1 l2 hab _ ih =>
    intro t ht
    rcases List.mem_cons.mp ht with rfl | ht
    · rw [← wrapperOf_congr hab]; exact h a (List.mem_cons_self a l1)
    · exact ih (fun u hu => h u (List.mem_cons_of_mem a hu)) t ht

/-- Unfolding of `transformTools` on a cons cell. -/
lemma transformTools_cons (t : ToolEntry) (ts : List ToolEntry) :
    transformTools (t :: ts)
      = match wrapperOf t with
        | some f => wireOf f :: transformTools ts
        | none => transformTools ts := by
  cases h : wrapperOf t <;> simp [transformTools, List.filterMap_cons, h]

/-- `transformTools` distributes over concatenation. -/
lemma transformTools_append (l1 l2 : List ToolEntry) :
    transformTools (l1 ++ l2) = transformTools l1 ++ transformTools l2 := by
  induction l1 with
  | nil => rfl
  | cons t ts ih =>
    rw [List.cons_append, transformTools_cons, transformTools_cons]
    cases wrapperOf t <;> simp [ih]

/-- Mapping the unguarded name read over a well-formed catalog yields
exactly the wrapper names. -/
lemma mapNamesJs_of_wf {tools : List ToolEntry}
    (hwf : ∀ t ∈ tools, (wrapperOf t).isSome = true) :
    mapNamesJs tools = .ok (toolNames tools) := by
  induction tools with
  | nil => rfl
  | cons t ts ih =>
    obtain ⟨f, hf⟩ := Option.isSome_iff_exists.mp (hwf t (List.mem_cons_self t ts))
    have hn := readFunctionName_of_wrapper hf
    have hts := ih (fun u hu => hwf u (List.mem_cons_of_mem t hu))
    simp [mapNamesJs, hn, hts, toolNames, List.filterMap_cons, hf]

/-- A scan that reaches a wrapper-less entry (every earlier entry being
named differently from the request) throws a `TypeError`. -/
lemma findTool_error_of_malformed (pre post : List ToolEntry)
    (bad : ToolEntry) (name : String)
    (hbad : wrapperOf bad = none)
    (hpre : ∀ t ∈ pre, ∀ f, wrapperOf t = some f → f.name ≠ name) :
    ∃ e : JsError, e.name = "TypeError"
      ∧ findTool (pre ++ bad :: post) name = .error e := by
  revert hpre
  induction pre with
  | nil =>
    intro _
    obtain ⟨e, he, herr⟩ := readFunctionName_error_of_none hbad
    exact ⟨e, he, by simp [findTool, herr]⟩
  | cons t ts ih =>
    intro hpre
    cases hw : wrapperOf t with
    | none =>
      obtain ⟨e, he, herr⟩ := readFunctionName_error_of_none hw
      exact ⟨e, he, by simp [findTool, herr]⟩
    | some f =>
      have hne : f.name ≠ name := hpre t (List.mem_cons_self t ts) f hw
      obtain ⟨e, he, herr⟩ := ih (fun u hu => hpre u (List.mem_cons_of_mem t hu))
      refine ⟨e, he, ?_⟩
      simp [findTool, readFunctionName_of_wrapper hw, hne, herr]

end Lemmas

/-- Claim C1: a `call_tool` request whose name matches no catalog entry's
`definition.function.name` by exact case-sensitive equality fails with the
protocol `MethodNotFound` error carrying the requested name, and no tool
implementation is invoked (the outcome is unchanged when every
implementation is replaced, keeping the definitions). -/
theorem claim_C1_unknown_tool (tools : List ToolEntry) (name : String)
    (args : Option ArgMap)
    (hwf : ∀ t ∈ tools, (wrapperOf t).isSome = true)
    (hnm : ∀ t ∈ tools, ∀ f, wrapperOf t = some f → f.name ≠ name) :
    dispatchCallTool tools ⟨name, args⟩
      = .protocolError .MethodNotFound ("Unknown tool: " ++ name)
    ∧ ∀ tools2,
        List.Forall₂ (fun a b => a.definition = b.definition) tools tools2 →
        dispatchCallTool tools2 ⟨name, args⟩
          = .protocolError .MethodNotFound ("Unknown tool: " ++ name) := by
  refine ⟨dispatch_unknown_aux tools name args hwf hnm, ?_⟩
  intro tools2 hfa
  exact dispatch_unknown_aux tools2 name args
    (@forall₂_wrapper tools tools2 hfa (fun o => o.isSome = true) hwf)
    (@forall₂_wrapper tools tools2 hfa
      (fun o => ∀ f, o = some f → f.name ≠ name) hnm)

/-- Witness for C1: against a one-entry catalog, the unmatched name
`no_such_tool` yields `MethodNotFound`. -/
theorem claim_C1_witness :
    dispatchCallTool [sampleTool] ⟨"no_such_tool", some []⟩
      = .protocolError .MethodNotFound ("Unknown tool: " ++ "no_such_tool") := by
  have h := claim_C1_unknown_tool [sampleTool] "no_such_tool" (some [])
    (by intro t ht; simp only [List.mem_singleton] at ht; subst ht; rfl)
    (by
      intro t ht f hf
      simp only [List.mem_singleton] at ht
      subst ht
      simp only [wrapperOf, sampleTool] at hf
      cases hf
      decide)
  exact h.1

/-- Claim C2: once a tool is resolved, validation of a supplied arguments
mapping checks only key presence of the schema-declared required names in
order; the first missing one is reported alone via `InvalidParams`, and an
empty required set (in particular an absent schema or required list) means
no validation, with invocation proceeding regardless of the values. -/
theorem claim_C2_required_validation (tools : List ToolEntry) (name : String)
    (m : ArgMap) (tool : ToolEntry)
    (hfind : findTool tools name = .ok (some tool)) :
    dispatchCallTool tools ⟨name, some m⟩
      = (match (requiredParams tool).find? (fun p => !(hasKey m p)) with
         | some p =>
            .protocolError .InvalidParams ("Missing required parameter: " ++ p)
         | none => invokeResult tool (some m))
    ∧ (∀ t : ToolEntry, (wrapperOf t).bind (fun f => f.parameters) = none →
        requiredParams t = []) := by
  constructor
  · simp only [dispatchCallTool, hfind, checkRequired_some_eq]
    cases h : (requiredParams tool).find? (fun p => !(hasKey m p)) <;> simp [h]
  · intro t h
    unfold wrapperOf at h
    unfold requiredParams
    cases hd : t.definition with
    | none => rfl
    | some d =>
      rw [hd] at h
      cases hf : d.function with
      | none => simp [hf]
      | some f =>
        replace h : f.parameters = none := by simpa [hf] using h
        simp [hf, h]

/-- Witness for C2: the sample tool requires `a`; calling it with an empty
arguments mapping reports exactly `a`. -/
theorem claim_C2_witness :
    dispatchCallTool [sampleTool] ⟨"t1", some []⟩
      = .protocolError .InvalidParams ("Missing required parameter: " ++ "a") := by
  have h := (claim_C2_required_validation [sampleTool] "t1" [] sampleTool rfl).1
  exact h

/-- Claim C4: `transformTools` maps each entry with a present
`definition.function` wrapper to exactly the `{name, description,
inputSchema}` shape taken from that wrapper, silently drops every entry
whose wrapper is absent (it is a total function, it cannot raise), and its
output length equals the number of entries with a present wrapper. -/
theorem claim_C4_transform_tools (tools : List ToolEntry) :
    transformTools tools = (tools.filterMap wrapperOf).map wireOf
    ∧ (transformTools tools).length
        = tools.countP (fun t => (wrapperOf t).isSome) := by
  induction tools with
  | nil => exact ⟨rfl, rfl⟩
  | cons t ts ih =>
    obtain ⟨ih1, ih2⟩ := ih
    rw [transformTools_cons]
    cases h : wrapperOf t with
    | none =>
      constructor
      · rw [List.filterMap_cons]; simp [h, ih1]
      · rw [List.countP_cons]; simp [h, ih2]
    | some f =>
      constructor
      · rw [List.filterMap_cons]; simp [h, ih1]
      · rw [List.countP_cons]; simp [h, ih2]

/-- Claim C9: a successful invocation produces exactly one content block of
type `text` whose text is the (deterministic, by being a function)
pretty-printed JSON serialization of the exact value the implementation
returned. -/
theorem claim_C9_success_serialization (tools : List ToolEntry)
    (name : String) (args : Option ArgMap) (tool : ToolEntry) (v : Value)
    (hfind : findTool tools name = .ok (some tool))
    (hval : checkRequired (requiredParams tool) args = .ok none)
    (hok : tool.function args = .ok v) :
    dispatchCallTool tools ⟨name, args⟩
      = .success ⟨[⟨"text", jsonStringify v⟩]⟩
    ∧ (CallToolResponse.mk [⟨"text", jsonStringify v⟩]).content.length = 1 := by
  refine ⟨?_, rfl⟩
  simp [dispatchCallTool, hfind, hval, invokeResult, hok]

/-- Witness for C9: the sample tool, called with its required key present
(bound to `null`, which passes validation), resolves with `"ok"` and the
response is the single serialized text block. -/
theorem claim_C9_witness :
    dispatchCallTool [sampleTool] ⟨"t1", some [("a", Value.null)]⟩
      = .success ⟨[⟨"text", jsonStringify (Value.str "ok")⟩]⟩ :=
  (claim_C9_success_serialization [sampleTool] "t1" (some [("a", Value.null)])
    sampleTool (Value.str "ok") rfl rfl rfl).1

/-- Claim C8: the spec's example request (origin, destination and departure
date supplied, `returnDate` omitted) passes validation and proceeds to
invocation against the `step-1-flight-offers-search-get.js` variant, whose
required set omits `returnDate`, and fails with `InvalidParams` naming
`returnDate` against the `src/unnamed/part_000` variant, whose required set
includes it — each dispatch reads the required set from the dispatched
tool's own schema. -/
theorem claim_C8_sibling_variants
    (impl1 impl2 : Option ArgMap → Except JsError Value) :
    requiredParams (step1FlightOffersTool impl1)
      = ["originLocationCode", "destinationLocationCode", "departureDate"]
    ∧ requiredParams (part000FlightOffersTool impl2)
      = ["originLocationCode", "destinationLocationCode", "departureDate",
         "returnDate"]
    ∧ dispatchCallTool [step1FlightOffersTool impl1]
        ⟨"search_flight_offers", some flightSearchArgs⟩
        = invokeResult (step1FlightOffersTool impl1) (some flightSearchArgs)
    ∧ dispatchCallTool [part000FlightOffersTool impl2]
        ⟨"search_flight_offers", some flightSearchArgs⟩
        = .protocolError .InvalidParams
            ("Missing required parameter: " ++ "returnDate") :=
  ⟨rfl, rfl, rfl, rfl⟩

/-- Claim C10: a catalog entry lacking the `definition.function` wrapper
makes resolution of every name not matched by an earlier entry throw a
`TypeError` (the resolve predicate reads `t.definition.function.name`
unguarded) instead of producing `MethodNotFound` or dispatching, even
though `transformTools` silently drops the same entry. -/
theorem claim_C10_malformed_entry_breaks_resolution
    (pre post : List ToolEntry) (bad : ToolEntry) (name : String)
    (args : Option ArgMap)
    (hbad : wrapperOf bad = none)
    (hpre : ∀ t ∈ pre, ∀ f, wrapperOf t = some f → f.name ≠ name) :
    ∃ e : JsError, e.name = "TypeError"
      ∧ findTool (pre ++ bad :: post) name = .error e
      ∧ dispatchCallTool (pre ++ bad :: post) ⟨name, args⟩ = .thrown e
      ∧ transformTools (pre ++ bad :: post) = transformTools (pre ++ post) := by
  have hdrop : transformTools (pre ++ bad :: post) = transformTools (pre ++ post) := by
    rw [transformTools_append, transformTools_append, transformTools_cons, hbad]
  obtain ⟨e, he, herr⟩ := findTool_error_of_malformed pre post bad name hbad hpre
  exact ⟨e, he, herr, by simp [dispatchCallTool, herr], hdrop⟩

/-- Witness for C10: a one-entry catalog whose sole entry lacks the
wrapper: resolving any name throws the `TypeError`, while `transformTools`
drops the entry. -/
theorem claim_C10_witness :
    ∃ e : JsError, e.name = "TypeError"
      ∧ findTool [badTool2] "x" = .error e
      ∧ dispatchCallTool [badTool2] ⟨"x", none⟩ = .thrown e
      ∧ transformTools [badTool2] = transformTools [] :=
  claim_C10_malformed_entry_breaks_resolution [] [] badTool2 "x" none rfl
    (by intro t ht; cases ht)

/-- Counterexample to C3 as stated: with a malformed catalog entry present,
the dispatch path throws a plain `TypeError` that is not converted to any
protocol error and escapes the handler. -/
theorem claim_C3_counterexample :
    dispatchCallTool [badTool] ⟨"any_tool", some []⟩
      = .thrown typeErrorReadFunction
    ∧ (∀ code msg, dispatchCallTool [badTool] ⟨"any_tool", some []⟩
        ≠ .protocolError code msg)
    ∧ (∀ resp, dispatchCallTool [badTool] ⟨"any_tool", some []⟩
        ≠ .success resp) := by
  refine ⟨rfl, ?_, ?_⟩
  · intro code msg h
    rw [show dispatchCallTool [badTool] ⟨"any_tool", some []⟩
          = .thrown typeErrorReadFunction from rfl] at h
    cases h
  · intro resp h
    rw [show dispatchCallTool [badTool] ⟨"any_tool", some []⟩
          = .thrown typeErrorReadFunction from rfl] at h
    cases h

/-- Claim C3 as amended: provided every catalog entry carries the
`definition.function` wrapper and the request supplies an arguments
mapping, no error escapes the handler unconverted; in particular an
implementation rejection is caught and re-raised as `InternalError` whose
message embeds the original message text and is independent of the original
stack. -/
theorem claim_C3_error_conversion (tools : List ToolEntry) (name : String)
    (m : ArgMap) (tool : ToolEntry) (e : JsError)
    (hwf : ∀ t ∈ tools, (wrapperOf t).isSome = true) :
    (∀ e2, dispatchCallTool tools ⟨name, some m⟩ ≠ .thrown e2)
    ∧ (findTool tools name = .ok (some tool) →
        checkRequired (requiredParams tool) (some m) = .ok none →
        tool.function (some m) = .error e →
        dispatchCallTool tools ⟨name, some m⟩
          = .protocolError .InternalError ("API error: " ++ e.message))
    ∧ (∀ stack2 : String,
        "API error: " ++ (JsError.mk e.name e.message stack2).message
          = "API error: " ++ e.message) := by
  refine ⟨?_, ?_, fun _ => rfl⟩
  · intro e2 h
    obtain ⟨o, ho⟩ := findTool_ok_of_wf name hwf
    cases o with
    | none => simp [dispatchCallTool, ho] at h
    | some t =>
      simp only [dispatchCallTool, ho, checkRequired_some_eq] at h
      cases hr : (requiredParams t).find? (fun p => !(hasKey m p)) with
      | some p => rw [hr] at h; simp at h
      | none =>
        rw [hr] at h
        cases hi : t.function (some m) with
        | ok v => simp [invokeResult, hi] at h
        | error e3 => simp [invokeResult, hi] at h
  · intro hfind hval hok
    simp [dispatchCallTool, hfind, hval, invokeResult, hok]

/-- Witness for C3 (amended): the failing sample tool's rejection with
message `boom` surfaces as `InternalError` with the embedded message, and
nothing is thrown past the handler. -/
theorem claim_C3_witness :
    (∀ e2, dispatchCallTool [failingTool] ⟨"t2", some []⟩ ≠ .thrown e2)
    ∧ dispatchCallTool [failingTool] ⟨"t2", some []⟩
        = .protocolError .InternalError ("API error: " ++ "boom") := by
  have h := claim_C3_error_conversion [failingTool] "t2" [] failingTool
    ⟨"Error", "boom", "Error: boom at dispatch"⟩
    (by intro t ht; simp only [List.mem_singleton] at ht; subst ht; rfl)
  exact ⟨h.1, h.2.1 rfl rfl rfl⟩

/-- Counterexample to C5 as stated: when `server.close()` rejects, the
close handler aborts after `delete transports[id]` and the `servers` entry
is never unregistered — both entries are not removed. -/
theorem claim_C5_counterexample :
    (closeFinal ⟨["A"], ["A"]⟩ "A" true).servers = ["A"]
    ∧ "A" ∈ (closeFinal ⟨["A"], ["A"]⟩ "A" true).servers
    ∧ (closeFinal ⟨["A"], ["A"]⟩ "A" true).transports = [] := by
  refine ⟨rfl, ?_, rfl⟩
  decide

/-- Claim C5 as amended: on stream closure the transport entry is removed,
then `server.close()` is awaited, then the server entry is removed; if the
release fails only the transport entry's removal is guaranteed and the
server entry is left registered; in either case a posted message carrying
the identifier afterwards receives the 400 client-error response, because
routing requires both entries. -/
theorem claim_C5_close_teardown (r : Registry) (sid : String)
    (closeFails : Bool) (hT : r.transports.Nodup) (hS : r.servers.Nodup) :
    sid ∉ (closeFinal r sid closeFails).transports
    ∧ (closeFails = false → sid ∉ (closeFinal r sid closeFails).servers)
    ∧ (closeFails = true → (closeFinal r sid closeFails).servers = r.servers)
    ∧ handleMessage (closeFinal r sid closeFails) sid
        = .clientError 400 "No transport/server found for sessionId" := by
  have hne : sid ∉ r.transports.erase sid := hT.not_mem_erase
  cases closeFails with
  | false =>
    have h1 : closeFinal r sid false
        = ⟨r.transports.erase sid, r.servers.erase sid⟩ := rfl
    rw [h1]
    refine ⟨hne, fun _ => hS.not_mem_erase, fun h => ?_, ?_⟩
    · exact absurd h (by decide)
    · simp [handleMessage, hne]
  | true =>
    have h1 : closeFinal r sid true = ⟨r.transports.erase sid, r.servers⟩ := rfl
    rw [h1]
    refine ⟨hne, fun h => ?_, fun _ => rfl, ?_⟩
    · exact absurd h (by decide)
    · simp [handleMessage, hne]

/-- Witness for C5 (amended): a successful close on a one-session registry
removes both entries and a posted message is then rejected. -/
theorem claim_C5_witness :
    "B" ∉ (closeFinal ⟨["B"], ["B"]⟩ "B" false).transports
    ∧ "B" ∉ (closeFinal ⟨["B"], ["B"]⟩ "B" false).servers
    ∧ handleMessage (closeFinal ⟨["B"], ["B"]⟩ "B" false) "B"
        = .clientError 400 "No transport/server found for sessionId" := by
  have h := claim_C5_close_teardown ⟨["B"], ["B"]⟩ "B" false
    (by decide) (by decide)
  exact ⟨h.1, h.2.1 rfl, h.2.2.2⟩

/-- Counterexample to C6 as stated: during a close the handler suspends on
`await server.close()` after deleting only the transport entry, so an
observable intermediate state holds the identifier in the servers map but
not in the transports map — removal is not atomic. -/
theorem claim_C6_counterexample :
    ∃ s ∈ closeObservedStates ⟨["A"], ["A"]⟩ "A" false,
      "A" ∉ s.transports ∧ "A" ∈ s.servers := by
  decide

/-- Claim C6 as amended: connect registers both entries in one observable
step, but close removes them non-atomically: the first observable state of
the close handler has the transport entry erased with the servers map
untouched, so an intermediate state holds the identifier in one map only;
in every state of the close sequence a posted message for the identifier is
already rejected. -/
theorem claim_C6_registry_states (r : Registry) (sid : String)
    (closeFails : Bool) (hT : r.transports.Nodup) (hm : sid ∈ r.servers) :
    connectReg r sid = ⟨r.transports.insert sid, r.servers.insert sid⟩
    ∧ (closeObservedStates r sid closeFails).head?
        = some ⟨r.transports.erase sid, r.servers⟩
    ∧ (∃ s ∈ closeObservedStates r sid closeFails,
        sid ∉ s.transports ∧ sid ∈ s.servers)
    ∧ (∀ s ∈ closeObservedStates r sid closeFails,
        handleMessage s sid
          = .clientError 400 "No transport/server found for sessionId") := by
  have hne : sid ∉ r.transports.erase sid := hT.not_mem_erase
  refine ⟨rfl, ?_, ?_, ?_⟩
  · cases closeFails <;> rfl
  · refine ⟨⟨r.transports.erase sid, r.servers⟩, ?_, hne, hm⟩
    cases closeFails with
    | false => exact List.mem_cons_self _ _
    | true => exact List.mem_singleton.mpr rfl
  · intro s hs
    cases closeFails with
    | false =>
      have hlist : closeObservedStates r sid false
          = [⟨r.transports.erase sid, r.servers⟩,
             ⟨r.transports.erase sid, r.servers.erase sid⟩] := rfl
      rw [hlist] at hs
      simp only [List.mem_cons, List.not_mem_nil, or_false] at hs
      rcases hs with rfl | rfl
      · simp [handleMessage, hne]
      · simp [handleMessage, hne]
    | true =>
      have hlist : closeObservedStates r sid true
          = [⟨r.transports.erase sid, r.servers⟩] := rfl
      rw [hlist] at hs
      rw [List.mem_singleton] at hs
      subst hs
      simp [handleMessage, hne]

/-- Witness for C6 (amended): on the one-session registry, the first
observed state of the close sequence holds the identifier in the servers
map only. -/
theorem claim_C6_witness :
    (closeObservedStates ⟨["B"], ["B"]⟩ "B" false).head? = some ⟨[], ["B"]⟩
    ∧ ∃ s ∈ closeObservedStates ⟨["B"], ["B"]⟩ "B" false,
        "B" ∉ s.transports ∧ "B" ∈ s.servers := by
  have h := claim_C6_registry_states ⟨["B"], ["B"]⟩ "B" false
    (by decide) (by decide)
  exact ⟨h.2.1, h.2.2.1⟩

/-- Claim C7: for `POST /api/call-tool` — a body without `toolName` yields
400 with the exact `Missing required field` body; a resolved tool with a
missing required parameter yields 400 naming the first missing parameter
together with the tool's full required list; an unknown tool yields 404
listing the available tool names; an execution failure yields 500 carrying
the error message; success returns the direct tool result with status 200
and no protocol envelope. -/
theorem claim_C7_rest_endpoint (tools : List ToolEntry) (devMode : Bool)
    (name : String) (m : ArgMap) (tool : ToolEntry)
    (hname : name ≠ "") :
    (∀ args2, handleApiCallTool tools devMode ⟨none, args2⟩
        = ⟨400, .obj [("error", .str "Missing required field: toolName")]⟩)
    ∧ (findTool tools name = .ok (some tool) →
        (∀ p, (requiredParams tool).find? (fun q => !(hasKey m q)) = some p →
           handleApiCallTool tools devMode ⟨some name, some m⟩
             = ⟨400, .obj
                 [("error", .str ("Missing required parameter: " ++ p)),
                  ("requiredParameters",
                    .arr ((requiredParams tool).map Value.str))]⟩)
        ∧ ((requiredParams tool).find? (fun q => !(hasKey m q)) = none →
            (∀ e, tool.function (some m) = .error e →
               handleApiCallTool tools devMode ⟨some name, some m⟩
                 = err500 devMode e)
            ∧ (∀ v, tool.function (some m) = .ok v →
               handleApiCallTool tools devMode ⟨some name, some m⟩
                 = ⟨200, v⟩)))
    ∧ ((∀ t ∈ tools, (wrapperOf t).isSome = true) →
        (∀ t ∈ tools, ∀ f, wrapperOf t = some f → f.name ≠ name) →
        handleApiCallTool tools devMode ⟨some name, some m⟩
          = ⟨404, .obj
              [("error", .str ("Tool \x27" ++ name ++ "\x27 not found")),
               ("availableTools", .arr ((toolNames tools).map Value.str))]⟩)
    ∧ (∀ e : JsError, err500 false e
        = ⟨500, .obj [("error", .str e.message)]⟩) := by
  refine ⟨fun args2 => rfl, fun hfind => ⟨?_, fun hnone => ⟨?_, ?_⟩⟩,
    fun hwf hnm => ?_, fun e => rfl⟩
  · intro p hp
    simp [handleApiCallTool, hname, hfind, checkRequired_some_eq, hp]
  · intro e he
    simp [handleApiCallTool, hname, hfind, checkRequired_some_eq, hnone, he]
  · intro v hv
    simp [handleApiCallTool, hname, hfind, checkRequired_some_eq, hnone, hv]
  · have hfind := findTool_eq_none hwf hnm
    have hnames := mapNamesJs_of_wf hwf
    simp [handleApiCallTool, hname, hfind, hnames]

/-- Witness for C7: against the one-entry catalog, the empty body yields
the exact 400; a call to `t1` without its required key `a` yields 400 with
the full required list; an unknown name yields the 404 listing `t1`. -/
theorem claim_C7_witness :
    handleApiCallTool [sampleTool] false ⟨none, some []⟩
      = ⟨400, .obj [("error", .str "Missing required field: toolName")]⟩
    ∧ handleApiCallTool [sampleTool] false ⟨some "t1", some []⟩
      = ⟨400, .obj [("error", .str ("Missing required parameter: " ++ "a")),
           ("requiredParameters", .arr (["a"].map Value.str))]⟩
    ∧ handleApiCallTool [sampleTool] false ⟨some "zzz", some []⟩
      = ⟨404, .obj [("error", .str ("Tool \x27" ++ "zzz" ++ "\x27 not found")),
           ("availableTools", .arr (["t1"].map Value.str))]⟩ := by
  have h := claim_C7_rest_endpoint [sampleTool] false "t1" [] sampleTool
    (by decide)
  have h4 := claim_C7_rest_endpoint [sampleTool] false "zzz" [] sampleTool
    (by decide)
  refine ⟨h.1 (some []), (h.2.1 rfl).1 "a" rfl, ?_⟩
  exact h4.2.2.1
    (by intro t ht; simp only [List.mem_singleton] at ht; subst ht; rfl)
    (by
      intro t ht f hf
      simp only [List.mem_singleton] at ht
      subst ht
      simp only [wrapperOf, sampleTool] at hf
      cases hf
      decide)

end McpServer
